import Mathlib

/-!
Verification development for the centauraa data pipeline
(`data-pipeline/embeddings.py`, `data-pipeline/migrate_transcriptions.py`,
`data-pipeline/therapist_context_manager.py`).

Python strings are modelled as lists of characters (`Text := List Char`);
the floats appearing in token/similarity arithmetic are modelled as exact
rationals, and the CPython `float` rounding behaviour is noted at every
concrete evaluation where it could matter.  Fallible code is modelled with
`Option`/`Except`.  All definitions are structurally recursive so that they
evaluate on concrete inputs.
-/

namespace Centauraa

/-- A piece of text, modelled as its list of characters (Python `str`). -/
abbrev Text := List Char

/-- Whitespace test used by Python `str.split()` / regex `\s`
(space, tab, newline, carriage return cover every character appearing here). -/
def isWS (c : Char) : Bool := c.isWhitespace

theorem length_dropWhile_le (p : α → Bool) (l : List α) :
    (l.dropWhile p).length ≤ l.length := by
  induction l with
  | nil => simp
  | cons a l ih =>
    rw [List.dropWhile_cons]
    by_cases h : p a
    · simp only [h, if_true]; exact Nat.le_trans ih (Nat.le_succ _)
    · simp [h]

/-- Accumulator form of `str.split()`: `acc` is the current word, reversed. -/
def pyWordsAcc (acc : Text) : Text → List Text
  | [] => if acc.isEmpty then [] else [acc.reverse]
  | c :: cs =>
    if isWS c then
      if acc.isEmpty then pyWordsAcc [] cs else acc.reverse :: pyWordsAcc [] cs
    else pyWordsAcc (c :: acc) cs

/-- Python `str.split()` with no argument: split on runs of whitespace,
dropping empty pieces (leading/trailing whitespace produces no words). -/
def pyWords (t : Text) : List Text := pyWordsAcc [] t

theorem pyWords_nil : pyWords [] = [] := rfl

theorem pyWords_cons_ws (c : Char) (cs : Text) (h : isWS c = true) :
    pyWords (c :: cs) = pyWords cs := by
  show pyWordsAcc [] (c :: cs) = pyWordsAcc [] cs
  rw [pyWordsAcc, if_pos h]
  simp only [List.isEmpty_nil, if_true]

theorem pyWordsAcc_ne (t : Text) : ∀ (acc : Text), acc ≠ [] →
    pyWordsAcc acc t =
      (acc.reverse ++ t.takeWhile (fun x => !isWS x)) ::
        pyWords (t.dropWhile (fun x => !isWS x)) := by
  induction t with
  | nil =>
    intro acc h
    cases acc with
    | nil => exact absurd rfl h
    | cons a as => simp [pyWordsAcc, pyWords, List.isEmpty]
  | cons c cs ih =>
    intro acc h
    have hemp : acc.isEmpty = false := by
      cases acc with
      | nil => exact absurd rfl h
      | cons a as => rfl
    by_cases hc : isWS c
    · have lhs : pyWordsAcc acc (c :: cs) = acc.reverse :: pyWords cs := by
        rw [pyWordsAcc, if_pos hc, hemp]
        rfl
      rw [lhs, List.takeWhile_cons, List.dropWhile_cons]
      simp only [hc, Bool.not_true, Bool.false_eq_true, if_false, List.append_nil]
      rw [pyWords_cons_ws c cs hc]
    · have hc' : isWS c = false := by simpa using hc
      rw [pyWordsAcc, if_neg hc, ih (c :: acc) (by simp)]
      rw [List.takeWhile_cons, List.dropWhile_cons]
      simp [hc']

theorem pyWords_cons_word (c : Char) (cs : Text) (h : isWS c = false) :
    pyWords (c :: cs) =
      (c :: cs.takeWhile (fun x => !isWS x)) ::
        pyWords (cs.dropWhile (fun x => !isWS x)) := by
  rw [pyWords, pyWordsAcc, if_neg (by simp [h]), pyWordsAcc_ne _ _ (by simp)]
  simp

/-- Python `" ".join(ws)`: interleave a single space between the pieces. -/
def joinWords : List Text → Text
  | [] => []
  | [w] => w
  | w :: w2 :: ws => w ++ ' ' :: joinWords (w2 :: ws)

/-- Accumulator form of chunking: `cur` is the current chunk reversed,
`k` its remaining capacity. -/
def chunksAcc (n : Nat) (cur : List α) (k : Nat) : List α → List (List α)
  | [] => if cur.isEmpty then [] else [cur.reverse]
  | x :: xs =>
    if k = 0 then cur.reverse :: chunksAcc n [x] (n - 1) xs
    else chunksAcc n (x :: cur) (k - 1) xs

/-- The consecutive slices `l[i:i+n]` for `i in range(0, len(l), n)` (callers
guarantee `n > 0`; `range` with step 0 raises in Python and is never reached). -/
def chunksOf (n : Nat) (l : List α) : List (List α) :=
  if n = 0 then [] else chunksAcc n [] n l

theorem chunksAcc_ne (n : Nat) (hn : 0 < n) :
    ∀ (l : List α) (cur : List α) (j : Nat), cur ≠ [] →
      chunksAcc n cur j l = (cur.reverse ++ l.take j) :: chunksOf n (l.drop j) := by
  intro l
  induction l with
  | nil =>
    intro cur j h
    cases cur with
    | nil => exact absurd rfl h
    | cons a as => simp [chunksAcc, chunksOf, List.isEmpty, Nat.pos_iff_ne_zero.mp hn]
  | cons x xs ih =>
    intro cur j h
    have hemp : cur.isEmpty = false := by
      cases cur with
      | nil => exact absurd rfl h
      | cons a as => rfl
    by_cases hj : j = 0
    · subst hj
      rw [chunksAcc, if_pos rfl]
      rw [ih [x] (n - 1) (by simp)]
      have hx : ([x] : List α).reverse ++ xs.take (n - 1) = (x :: xs).take n := by
        cases n with
        | zero => exact absurd rfl (Nat.pos_iff_ne_zero.mp hn)
        | succ m => simp
      have hd : xs.drop (n - 1) = (x :: xs).drop n := by
        cases n with
        | zero => exact absurd rfl (Nat.pos_iff_ne_zero.mp hn)
        | succ m => simp
      rw [hx, hd]
      simp only [List.take_zero, List.append_nil, List.drop_zero]
      have key : chunksOf n (x :: xs) = chunksAcc n [x] (n - 1) xs := by
        rw [chunksOf, if_neg (Nat.pos_iff_ne_zero.mp hn)]
        have : chunksAcc n [] n (x :: xs) =
            if n = 0 then ([] : List α).reverse :: chunksAcc n [x] (n - 1) xs
            else chunksAcc n (x :: []) (n - 1) xs := rfl
        rw [this, if_neg (Nat.pos_iff_ne_zero.mp hn)]
      rw [key, ih [x] (n - 1) (by simp), hx, hd]
    · rw [chunksAcc, if_neg hj, ih (x :: cur) (j - 1) (by simp)]
      have ht : (x :: cur).reverse ++ xs.take (j - 1) = cur.reverse ++ (x :: xs).take j := by
        cases j with
        | zero => exact absurd rfl hj
        | succ m => simp
      have hd : xs.drop (j - 1) = (x :: xs).drop j := by
        cases j with
        | zero => exact absurd rfl hj
        | succ m => simp
      rw [ht, hd]

theorem chunksOf_nil (n : Nat) : chunksOf n ([] : List α) = [] := by
  rw [chunksOf]
  by_cases h : n = 0 <;> simp [h, chunksAcc]

theorem chunksOf_cons (n : Nat) (hn : 0 < n) (x : α) (xs : List α) :
    chunksOf n (x :: xs) = (x :: xs).take n :: chunksOf n ((x :: xs).drop n) := by
  have hn' := Nat.pos_iff_ne_zero.mp hn
  rw [chunksOf, if_neg hn', chunksAcc, if_neg hn',
    chunksAcc_ne n hn xs [x] (n - 1) (by simp)]
  have hx : ([x] : List α).reverse ++ xs.take (n - 1) = (x :: xs).take n := by
    cases n with
    | zero => exact absurd rfl hn'
    | succ m => simp
  have hd : xs.drop (n - 1) = (x :: xs).drop n := by
    cases n with
    | zero => exact absurd rfl hn'
    | succ m => simp
  rw [hx, hd]

/-- `chunk_text` from `embeddings.py` (lines 433-438): split text into chunks of
at most `size` words; text of at most `size` words is returned unchanged. -/
def chunk_text (text : Text) (size : Nat) : List Text :=
  let words := pyWords text
  if words.length ≤ size then [text]
  else (chunksOf size words).map joinWords

/-- A word produced by `pyWords` is nonempty and contains no whitespace. -/
def goodWord (w : Text) : Prop := w ≠ [] ∧ ∀ c ∈ w, isWS c = false

theorem pyWords_good_aux :
    ∀ (len : Nat) (t : Text), t.length ≤ len → ∀ w ∈ pyWords t, goodWord w := by
  intro len
  induction len with
  | zero =>
    intro t ht w hw
    have : t = [] := List.length_eq_zero.mp (Nat.le_zero.mp ht)
    subst this; rw [pyWords_nil] at hw; cases hw
  | succ m ih =>
    intro t ht w hw
    cases t with
    | nil => rw [pyWords_nil] at hw; cases hw
    | cons c cs =>
      by_cases hc : isWS c
      · rw [pyWords_cons_ws c cs hc] at hw
        exact ih cs (by simpa using Nat.le_of_succ_le_succ ht) w hw
      · rw [pyWords_cons_word c cs (by simpa using hc)] at hw
        rcases List.mem_cons.mp hw with hw | hw
        · subst hw
          refine ⟨by simp, ?_⟩
          intro x hx
          rcases List.mem_cons.mp hx with hx | hx
          · subst hx; simpa using hc
          · have := List.mem_takeWhile_imp hx
            simpa using this
        · refine ih _ ?_ w hw
          calc (cs.dropWhile (fun x => !isWS x)).length ≤ cs.length :=
                length_dropWhile_le _ _
            _ ≤ m := by simpa using Nat.le_of_succ_le_succ ht

theorem pyWords_good (t : Text) : ∀ w ∈ pyWords t, goodWord w :=
  pyWords_good_aux t.length t le_rfl

theorem joinWords_cons_cons (w w2 : Text) (ws : List Text) :
    joinWords (w :: w2 :: ws) = w ++ ' ' :: joinWords (w2 :: ws) := rfl

theorem joinWords_append (l1 l2 : List Text) (h1 : l1 ≠ []) (h2 : l2 ≠ []) :
    joinWords (l1 ++ l2) = joinWords l1 ++ ' ' :: joinWords l2 := by
  induction l1 with
  | nil => exact absurd rfl h1
  | cons w ws ih =>
    cases ws with
    | nil =>
      cases l2 with
      | nil => exact absurd rfl h2
      | cons x xs => simp [joinWords]
    | cons w2 ws2 =>
      have step : (w :: w2 :: ws2) ++ l2 = w :: (w2 :: (ws2 ++ l2)) := by simp
      rw [step, joinWords_cons_cons]
      have : w2 :: (ws2 ++ l2) = (w2 :: ws2) ++ l2 := by simp
      rw [this, ih (by simp), joinWords_cons_cons]
      simp

theorem takeWhile_all (p : Char → Bool) (w : Text) (h : ∀ c ∈ w, p c = true) :
    w.takeWhile p = w := by
  induction w with
  | nil => rfl
  | cons c cs ih =>
    simp only [List.takeWhile_cons]
    rw [h c (by simp)]
    simp only [if_pos]
    rw [ih (fun x hx => h x (by simp [hx]))]

theorem takeWhile_append_of_all (p : Char → Bool) (w rest : Text)
    (h : ∀ c ∈ w, p c = true) :
    (w ++ rest).takeWhile p = w ++ rest.takeWhile p := by
  induction w with
  | nil => simp
  | cons c cs ih =>
    simp only [List.cons_append, List.takeWhile_cons]
    rw [h c (by simp)]
    simp only [if_pos]
    rw [ih (fun x hx => h x (by simp [hx]))]

theorem dropWhile_append_of_all (p : Char → Bool) (w rest : Text)
    (h : ∀ c ∈ w, p c = true) :
    (w ++ rest).dropWhile p = rest.dropWhile p := by
  induction w with
  | nil => simp
  | cons c cs ih =>
    simp only [List.cons_append, List.dropWhile_cons]
    rw [h c (by simp)]
    simp only [if_pos]
    exact ih (fun x hx => h x (by simp [hx]))

/-- Splitting the single-space join of good words recovers the words. -/
theorem pyWords_joinWords (l : List Text) (h : ∀ w ∈ l, goodWord w) :
    pyWords (joinWords l) = l := by
  induction l with
  | nil => rw [joinWords, pyWords_nil]
  | cons w ws ih =>
    obtain ⟨hne, hgood⟩ := h w (by simp)
    cases hw : w with
    | nil => exact absurd hw hne
    | cons c cs =>
      have hc : isWS c = false := by
        subst hw; exact hgood c (by simp)
      have hcs : ∀ x ∈ cs, isWS x = false := by
        intro x hx; subst hw; exact hgood x (by simp [hx])
      cases ws with
      | nil =>
        subst hw
        rw [joinWords, pyWords_cons_word c cs hc]
        rw [takeWhile_all _ _ (by intro x hx; simp [hcs x hx]),
            List.dropWhile_eq_nil_iff.mpr (by intro x hx; simp [hcs x hx])]
        rw [pyWords_nil]
      | cons w2 ws2 =>
        subst hw
        rw [joinWords_cons_cons]
        simp only [List.cons_append]
        rw [pyWords_cons_word c _ hc]
        rw [takeWhile_append_of_all _ _ _ (by intro x hx; simp [hcs x hx]),
            dropWhile_append_of_all _ _ _ (by intro x hx; simp [hcs x hx])]
        have hsp : isWS ' ' = true := by decide
        simp only [List.dropWhile_cons, List.takeWhile_cons, hsp, Bool.not_true,
          Bool.false_eq_true, if_false, List.takeWhile_nil, List.append_nil]
        rw [pyWords_cons_ws _ _ hsp]
        rw [ih (fun x hx => h x (by simp [hx]))]

theorem chunksOf_length_le_aux (n : Nat) (hn : 0 < n) :
    ∀ (len : Nat) (l : List α), l.length ≤ len →
      ∀ c ∈ chunksOf n l, c.length ≤ n := by
  intro len
  induction len with
  | zero =>
    intro l hl c hc
    have : l = [] := List.length_eq_zero.mp (Nat.le_zero.mp hl)
    subst this; rw [chunksOf_nil] at hc; cases hc
  | succ m ih =>
    intro l hl c hc
    cases l with
    | nil => rw [chunksOf_nil] at hc; cases hc
    | cons x xs =>
      rw [chunksOf_cons n hn] at hc
      rcases List.mem_cons.mp hc with hc | hc
      · subst hc
        exact List.length_take_le n (x :: xs)
      · refine ih ((x :: xs).drop n) ?_ c hc
        have hd : ((x :: xs).drop n).length = (x :: xs).length - n := List.length_drop n (x :: xs)
        have hc2 : (x :: xs).length = xs.length + 1 := by simp
        have hn' : 1 ≤ n := hn
        rw [hd, hc2]
        rw [hc2] at hl
        omega

theorem chunksOf_subset_aux (n : Nat) (hn : 0 < n) :
    ∀ (len : Nat) (l : List α), l.length ≤ len →
      ∀ c ∈ chunksOf n l, ∀ x ∈ c, x ∈ l := by
  intro len
  induction len with
  | zero =>
    intro l hl c hc
    have : l = [] := List.length_eq_zero.mp (Nat.le_zero.mp hl)
    subst this; rw [chunksOf_nil] at hc; cases hc
  | succ m ih =>
    intro l hl c hc x hx
    cases l with
    | nil => rw [chunksOf_nil] at hc; cases hc
    | cons y ys =>
      rw [chunksOf_cons n hn] at hc
      rcases List.mem_cons.mp hc with hc | hc
      · subst hc
        exact List.take_subset _ _ hx
      · have hmem : x ∈ (y :: ys).drop n := by
          refine ih ((y :: ys).drop n) ?_ c hc x hx
          have hd : ((y :: ys).drop n).length = (y :: ys).length - n := List.length_drop n (y :: ys)
          have hc2 : (y :: ys).length = ys.length + 1 := by simp
          have hn' : 1 ≤ n := hn
          rw [hd, hc2]
          rw [hc2] at hl
          omega
        exact List.drop_subset _ _ hmem

theorem joinWords_chunksOf_aux (n : Nat) (hn : 0 < n) :
    ∀ (len : Nat) (l : List Text), l.length ≤ len →
      joinWords ((chunksOf n l).map joinWords) = joinWords l := by
  intro len
  induction len with
  | zero =>
    intro l hl
    have : l = [] := List.length_eq_zero.mp (Nat.le_zero.mp hl)
    subst this; rw [chunksOf_nil]; rfl
  | succ m ih =>
    intro l hl
    cases l with
    | nil => rw [chunksOf_nil]; rfl
    | cons x xs =>
      rw [chunksOf_cons n hn]
      by_cases hd : (x :: xs).drop n = []
      · rw [hd, chunksOf_nil]
        have : (x :: xs).take n = x :: xs := by
          apply List.take_of_length_le
          have := List.drop_eq_nil_iff.mp hd
          omega
        rw [this]
        rfl
      · have hlen : ((x :: xs).drop n).length ≤ m := by
          have hdl : ((x :: xs).drop n).length = (x :: xs).length - n :=
            List.length_drop n (x :: xs)
          have hc2 : (x :: xs).length = xs.length + 1 := by simp
          have hn' : 1 ≤ n := hn
          rw [hdl, hc2]
          rw [hc2] at hl
          omega
        have hrec := ih ((x :: xs).drop n) hlen
        cases hch : chunksOf n ((x :: xs).drop n) with
        | nil =>
          exfalso
          cases hdl : (x :: xs).drop n with
          | nil => exact hd hdl
          | cons z zs => rw [hdl, chunksOf_cons n hn] at hch; cases hch
        | cons c0 crest =>
          have expand : List.map joinWords ((x :: xs).take n :: c0 :: crest) =
              joinWords ((x :: xs).take n) :: joinWords c0 :: List.map joinWords crest := rfl
          rw [expand, joinWords_cons_cons]
          have fold : (joinWords c0 :: List.map joinWords crest) =
              List.map joinWords (chunksOf n ((x :: xs).drop n)) := by
            rw [hch]; rfl
          rw [fold, hrec]
          have htake : (x :: xs).take n ≠ [] := by
            simp [Nat.pos_iff_ne_zero.mp hn]
          rw [← joinWords_append _ _ htake hd, List.take_append_drop]

/-- C8: the chunker splits on whitespace word boundaries, each chunk holds at
most `size` words, joining the chunks with single spaces reconstructs the
whitespace-normalized input, and input of at most `size` words is returned
as a single chunk equal to the input. -/
theorem chunk_text_correct (text : Text) (N : Nat) (hN : 0 < N)
    (hnorm : joinWords (pyWords text) = text) :
    (∀ c ∈ chunk_text text N, (pyWords c).length ≤ N) ∧
    joinWords (chunk_text text N) = text ∧
    ((pyWords text).length ≤ N → chunk_text text N = [text]) := by
  by_cases hle : (pyWords text).length ≤ N
  · refine ⟨?_, ?_, fun _ => by rw [chunk_text, if_pos hle]⟩
    · intro c hc
      rw [chunk_text, if_pos hle] at hc
      rcases List.mem_cons.mp hc with hc | hc
      · subst hc; exact hle
      · cases hc
    · rw [chunk_text, if_pos hle]
      exact hnorm ▸ rfl
  · rw [chunk_text, if_neg hle]
    refine ⟨?_, ?_, fun h => absurd h hle⟩
    · intro c hc
      simp only [List.mem_map] at hc
      obtain ⟨ch, hch, rfl⟩ := hc
      have hgood : ∀ w ∈ ch, goodWord w := fun w hw =>
        pyWords_good text w
          (chunksOf_subset_aux N hN (pyWords text).length (pyWords text) le_rfl ch hch w hw)
      rw [pyWords_joinWords ch hgood]
      exact chunksOf_length_le_aux N hN (pyWords text).length (pyWords text) le_rfl ch hch
    · rw [joinWords_chunksOf_aux N hN (pyWords text).length (pyWords text) le_rfl, hnorm]

/-- Witness for C8 at a concrete normalized text and budget 2. -/
theorem chunk_text_correct_witness :
    (0 < 2 ∧ joinWords (pyWords "hello world again".data) = "hello world again".data) ∧
    joinWords (chunk_text "hello world again".data 2) = "hello world again".data :=
  ⟨⟨by decide, by decide⟩,
    (chunk_text_correct "hello world again".data 2 (by decide) (by decide)).2.1⟩

/-! ### Rate-aware embedding client state machine (`embeddings.py` lines 280-316)

Modelled with the default configuration: `MAX_BATCH_SIZE = 500`,
`MIN_BATCH_SIZE = 10`, `ADAPTIVE_BATCH_SIZING = true`.  `int(x * 1.5)` on a
batch-size integer is exact float arithmetic and equals `x * 3 / 2` in
truncated natural division. -/

def MAX_BATCH_SIZE : Nat := 500

def MIN_BATCH_SIZE : Nat := 10

structure RateLimitState where
  current_batch_size : Nat
  rate_limit_hits : Nat
  consecutive_successes : Nat
deriving DecidableEq

def RateLimitState.init : RateLimitState :=
  { current_batch_size := MAX_BATCH_SIZE, rate_limit_hits := 0, consecutive_successes := 0 }

/-- `RateLimitState.on_rate_limit` (lines 288-295): count the hit, halve the
batch size when above the floor (not below it), reset the success streak. -/
def RateLimitState.on_rate_limit (s : RateLimitState) : RateLimitState :=
  if MIN_BATCH_SIZE < s.current_batch_size then
    { current_batch_size := max MIN_BATCH_SIZE (s.current_batch_size / 2),
      rate_limit_hits := s.rate_limit_hits + 1,
      consecutive_successes := 0 }
  else
    { current_batch_size := s.current_batch_size,
      rate_limit_hits := s.rate_limit_hits + 1,
      consecutive_successes := 0 }

/-- `RateLimitState.on_success` (lines 297-306): count the success; once the
streak reaches 10, grow the batch size by 50% capped at the maximum (only
when strictly below it) and reset the streak. -/
def RateLimitState.on_success (s : RateLimitState) : RateLimitState :=
  if 10 ≤ s.consecutive_successes + 1 then
    if s.current_batch_size < MAX_BATCH_SIZE then
      { s with current_batch_size := min MAX_BATCH_SIZE (s.current_batch_size * 3 / 2),
               consecutive_successes := 0 }
    else { s with consecutive_successes := 0 }
  else { s with consecutive_successes := s.consecutive_successes + 1 }

/-- States reachable from the initial state by any sequence of rate-limit
and success events. -/
inductive RateLimitState.Reachable : RateLimitState → Prop
  | init : RateLimitState.Reachable RateLimitState.init
  | rl {s} : RateLimitState.Reachable s → RateLimitState.Reachable s.on_rate_limit
  | succ {s} : RateLimitState.Reachable s → RateLimitState.Reachable s.on_success

theorem RateLimitState.reachable_bounds {s : RateLimitState} (h : s.Reachable) :
    MIN_BATCH_SIZE ≤ s.current_batch_size ∧ s.current_batch_size ≤ MAX_BATCH_SIZE := by
  induction h with
  | init => exact ⟨by decide, by decide⟩
  | rl _ ih =>
    rename_i t _
    obtain ⟨h1, h2⟩ := ih
    rw [RateLimitState.on_rate_limit]
    by_cases hc : MIN_BATCH_SIZE < t.current_batch_size
    · rw [if_pos hc]
      refine ⟨Nat.le_max_left _ _, ?_⟩
      apply Nat.max_le.mpr
      exact ⟨by decide, Nat.le_trans (Nat.div_le_self _ _) h2⟩
    · rw [if_neg hc]
      exact ⟨h1, h2⟩
  | succ _ ih =>
    rename_i t _
    obtain ⟨h1, h2⟩ := ih
    rw [RateLimitState.on_success]
    by_cases hc : 10 ≤ t.consecutive_successes + 1
    · rw [if_pos hc]
      by_cases hg : t.current_batch_size < MAX_BATCH_SIZE
      · rw [if_pos hg]
        refine ⟨?_, Nat.min_le_left _ _⟩
        apply Nat.le_min.mpr
        refine ⟨by decide, ?_⟩
        calc MIN_BATCH_SIZE ≤ t.current_batch_size := h1
          _ ≤ t.current_batch_size * 3 / 2 := by omega
      · rw [if_neg hg]
        exact ⟨h1, h2⟩
    · rw [if_neg hc]
      exact ⟨h1, h2⟩

theorem RateLimitState.on_success_streak {s : RateLimitState} (k : Nat)
    (hs : s.consecutive_successes = 0) (hk : k < 10) :
    RateLimitState.on_success^[k] s =
      { s with consecutive_successes := k } := by
  induction k with
  | zero =>
    simp only [Function.iterate_zero, id]
    cases s with
    | mk a b c =>
      simp only at hs
      subst hs
      rfl
  | succ m ih =>
    rw [Function.iterate_succ_apply', ih (Nat.lt_of_succ_lt hk)]
    rw [RateLimitState.on_success]
    have hnot : ¬ (10 ≤ ({ s with consecutive_successes := m } :
        RateLimitState).consecutive_successes + 1) := by
      simp only
      omega
    rw [if_neg hnot]

/-- Shared helper: effect of `on_rate_limit` on any state at or above the
batch-size floor. -/
theorem on_rate_limit_spec {s : RateLimitState}
    (hmin : MIN_BATCH_SIZE ≤ s.current_batch_size) :
    s.on_rate_limit.current_batch_size = max MIN_BATCH_SIZE (s.current_batch_size / 2) ∧
    s.on_rate_limit.consecutive_successes = 0 := by
  rw [RateLimitState.on_rate_limit]
  by_cases hc : MIN_BATCH_SIZE < s.current_batch_size
  · rw [if_pos hc]
    exact ⟨rfl, rfl⟩
  · have heq : s.current_batch_size = MIN_BATCH_SIZE := Nat.le_antisymm (by omega) hmin
    rw [if_neg hc]
    refine ⟨?_, rfl⟩
    rw [heq]
    exact (Nat.max_eq_left (Nat.div_le_self _ _)).symm

/-- C4: from any reachable state, `on_rate_limit` sets the batch size to
`max(MIN_BATCH_SIZE, old // 2)` and zeroes the success streak; starting a
fresh success run, ten consecutive `on_success` calls set the batch size to
`min(MAX_BATCH_SIZE, int(old * 1.5))` and zero the streak, while fewer than
ten leave the batch size unchanged. -/
theorem rate_limit_state_machine (s : RateLimitState) (hs : s.Reachable) :
    (s.on_rate_limit.current_batch_size =
        max MIN_BATCH_SIZE (s.current_batch_size / 2) ∧
      s.on_rate_limit.consecutive_successes = 0) ∧
    (s.consecutive_successes = 0 →
      ((RateLimitState.on_success^[10] s).current_batch_size =
          min MAX_BATCH_SIZE (s.current_batch_size * 3 / 2) ∧
        (RateLimitState.on_success^[10] s).consecutive_successes = 0) ∧
      (∀ k, k < 10 →
        (RateLimitState.on_success^[k] s).current_batch_size = s.current_batch_size)) := by
  obtain ⟨hmin, hmax⟩ := RateLimitState.reachable_bounds hs
  constructor
  · exact on_rate_limit_spec hmin
  · intro hz
    constructor
    · have h10 : (10 : Nat) = 9 + 1 := by decide
      rw [h10, Function.iterate_succ_apply',
        RateLimitState.on_success_streak 9 hz (by decide)]
      rw [RateLimitState.on_success]
      have hcond : 10 ≤ ({ s with consecutive_successes := 9 } :
          RateLimitState).consecutive_successes + 1 := by
        show 10 ≤ 9 + 1
        decide
      rw [if_pos hcond]
      by_cases hg : s.current_batch_size < MAX_BATCH_SIZE
      · rw [if_pos (show ({ s with consecutive_successes := 9 } :
          RateLimitState).current_batch_size < MAX_BATCH_SIZE from hg)]
        exact ⟨rfl, rfl⟩
      · have heq : s.current_batch_size = MAX_BATCH_SIZE := Nat.le_antisymm hmax (by omega)
        rw [if_neg (show ¬ ({ s with consecutive_successes := 9 } :
          RateLimitState).current_batch_size < MAX_BATCH_SIZE from hg)]
        refine ⟨?_, rfl⟩
        show s.current_batch_size = min MAX_BATCH_SIZE (s.current_batch_size * 3 / 2)
        rw [heq]
        have hle : MAX_BATCH_SIZE ≤ MAX_BATCH_SIZE * 3 / 2 := by decide
        rw [Nat.min_eq_left hle]
    · intro k hk
      rw [RateLimitState.on_success_streak k hz hk]

/-- Witness for C4 at the concrete reachable state reached by one
rate-limit event from the initial state (batch size 250, streak 0). -/
theorem rate_limit_state_machine_witness :
    RateLimitState.init.on_rate_limit.consecutive_successes = 0 ∧
    RateLimitState.init.on_rate_limit.on_rate_limit.current_batch_size = 125 ∧
    (RateLimitState.on_success^[10] RateLimitState.init.on_rate_limit).current_batch_size
      = 375 := by
  have h := rate_limit_state_machine RateLimitState.init.on_rate_limit
    (RateLimitState.Reachable.rl RateLimitState.Reachable.init)
  refine ⟨by decide, ?_, ?_⟩
  · rw [h.1.1]; decide
  · rw [((h.2 (by decide)).1).1]; decide

/-! ### Retry-hint parsing and the retry decision (`embeddings.py` 461-526)

`parse_retry_after` implements `re.search(r'try again in (\d+(?:\.\d+)?)(ms|s)', msg)`:
the literal phrase `try again in ` followed by a decimal number and a unit,
searched left to right.  Times are exact rationals (the source's `* 1.2`
safety margin is modelled as `* (6/5)`). -/

def digitsVal (ds : Text) : Nat :=
  ds.foldl (fun a c => a * 10 + (c.toNat - 48)) 0

/-- Digits of the optional fractional part `(?:\.\d+)?`: nonempty only when a
dot directly followed by at least one digit is present. -/
def fracDigits : Text → Text
  | '.' :: rest => rest.takeWhile Char.isDigit
  | _ => []

/-- Attempt the retry-hint pattern at the head of `l`; returns the matched
groups (integer digits, fractional digits, unit). -/
def matchRetryAt (l : Text) : Option (Text × Text × Text) :=
  if "try again in ".data.isPrefixOf l then
    let rest := l.drop "try again in ".data.length
    let digits := rest.takeWhile Char.isDigit
    if digits.isEmpty then none
    else
      let after := rest.drop digits.length
      let fracd := fracDigits after
      let after2 := if fracd.isEmpty then after else after.drop (fracd.length + 1)
      if "ms".data.isPrefixOf after2 then some (digits, fracd, "ms".data)
      else if "s".data.isPrefixOf after2 then some (digits, fracd, "s".data)
      else none
  else none

/-- Leftmost occurrence of the retry-hint pattern (the scan of `re.search`). -/
def searchRetryGroups : Text → Option (Text × Text × Text)
  | [] => none
  | c :: cs =>
    match matchRetryAt (c :: cs) with
    | some g => some g
    | none => searchRetryGroups cs

/-- Numeric value of a match, in seconds (`value / 1000` for a `ms` unit). -/
def hintValue (g : Text × Text × Text) : ℚ :=
  let v : ℚ :=
    if g.2.1.isEmpty then (digitsVal g.1 : ℚ)
    else (digitsVal g.1 : ℚ) + (digitsVal g.2.1 : ℚ) / (10 : ℚ) ^ g.2.1.length
  if g.2.2 = "ms".data then v / 1000 else v

/-- `parse_retry_after` (lines 461-473): leftmost occurrence of the pattern,
converted to seconds; `none` when no occurrence matches. -/
def parse_retry_after (t : Text) : Option ℚ :=
  (searchRetryGroups t).map hintValue

def lowerText (t : Text) : Text := t.map Char.toLower

def containsSub (needle : Text) : Text → Bool
  | [] => needle.isEmpty
  | c :: cs => needle.isPrefixOf (c :: cs) || containsSub needle cs

/-- Rate-limit detection in `get_batch_embeddings` (line 497):
`'rate_limit' in error_str.lower() or '429' in error_str`. -/
def isRateLimitError (e : Text) : Bool :=
  containsSub "rate_limit".data (lowerText e) || containsSub "429".data e

def RETRY_DELAY : ℚ := 5

structure RetryDecision where
  wait_time : ℚ
  state_after : RateLimitState

/-- Retry decision of `get_batch_embeddings` (lines 492-523) for an error at
attempt `retry_count < MAX_RETRIES`: on a rate-limit error the adaptive state
is halved first, then the parsed hint (if present and nonzero — Python
truthiness of `retry_after`) with a 20% margin sets the wait, else exponential
backoff; non-rate-limit errors use linear backoff and leave the state alone. -/
def retryStep (state : RateLimitState) (error_str : Text) (retry_count : Nat) :
    RetryDecision :=
  if isRateLimitError error_str then
    let state2 := state.on_rate_limit
    match parse_retry_after error_str with
    | some r =>
      if r = 0 then { wait_time := RETRY_DELAY * 2 ^ retry_count, state_after := state2 }
      else { wait_time := r * (6 / 5), state_after := state2 }
    | none => { wait_time := RETRY_DELAY * 2 ^ retry_count, state_after := state2 }
  else
    { wait_time := RETRY_DELAY * (retry_count + 1), state_after := state }

/-- C6 counterexample: a rate-limit error whose hint reads "retry in 500ms"
is not recognized by the parser (which requires the phrasing
"try again in ..."), so the next wait is the 5-second exponential-backoff
fallback rather than ≈0.6 s. -/
theorem retry_in_hint_not_parsed :
    parse_retry_after "Error code: 429 - retry in 500ms".data = none ∧
    (retryStep RateLimitState.init "Error code: 429 - retry in 500ms".data 0).wait_time
      = 5 ∧
    ¬ (retryStep RateLimitState.init "Error code: 429 - retry in 500ms".data 0).wait_time
      = 3 / 5 := by
  have hsearch : searchRetryGroups "Error code: 429 - retry in 500ms".data = none := by
    decide
  have hnone : parse_retry_after "Error code: 429 - retry in 500ms".data = none := by
    rw [parse_retry_after, hsearch]
    rfl
  have hrl : isRateLimitError "Error code: 429 - retry in 500ms".data = true := by decide
  have hwait : (retryStep RateLimitState.init
      "Error code: 429 - retry in 500ms".data 0).wait_time = 5 := by
    rw [retryStep, if_pos hrl, hnone]
    show RETRY_DELAY * 2 ^ 0 = 5
    norm_num [RETRY_DELAY]
  refine ⟨hnone, hwait, ?_⟩
  rw [hwait]
  norm_num

/-- C6 (amended): for a rate-limit error whose message carries the hint in the
phrasing the client actually parses ("try again in 500ms"), the next retry
waits 500ms × 1.2 = 0.6 s, and the adaptive batch size is halved (not below
the floor) before that retry. -/
theorem retry_after_hint_applied (s : RateLimitState) (hs : s.Reachable)
    (e : Text) (rc : Nat)
    (hhint : parse_retry_after e = some (1 / 2))
    (hrl : isRateLimitError e = true) :
    (retryStep s e rc).wait_time = 3 / 5 ∧
    (retryStep s e rc).state_after = s.on_rate_limit ∧
    (retryStep s e rc).state_after.current_batch_size =
      max MIN_BATCH_SIZE (s.current_batch_size / 2) := by
  have hmin := (RateLimitState.reachable_bounds hs).1
  rw [retryStep, if_pos hrl, hhint]
  have hz : ¬ ((1 : ℚ) / 2 = 0) := by norm_num
  refine ⟨?_, ?_, ?_⟩
  · show ((if (1 : ℚ) / 2 = 0 then
        ({ wait_time := RETRY_DELAY * 2 ^ rc, state_after := s.on_rate_limit } : RetryDecision)
      else { wait_time := (1 : ℚ) / 2 * (6 / 5), state_after := s.on_rate_limit }).wait_time
        = 3 / 5)
    rw [if_neg hz]
    norm_num
  · show ((if (1 : ℚ) / 2 = 0 then
        ({ wait_time := RETRY_DELAY * 2 ^ rc, state_after := s.on_rate_limit } : RetryDecision)
      else { wait_time := (1 : ℚ) / 2 * (6 / 5), state_after := s.on_rate_limit }).state_after
        = s.on_rate_limit)
    rw [if_neg hz]
  · show ((if (1 : ℚ) / 2 = 0 then
        ({ wait_time := RETRY_DELAY * 2 ^ rc, state_after := s.on_rate_limit } : RetryDecision)
      else { wait_time := (1 : ℚ) / 2 * (6 / 5),
             state_after := s.on_rate_limit }).state_after.current_batch_size
        = max MIN_BATCH_SIZE (s.current_batch_size / 2))
    rw [if_neg hz]
    exact (on_rate_limit_spec hmin).1

/-- Witness for C6 (amended) at a concrete OpenAI-style error message and the
initial adaptive state. -/
theorem retry_after_hint_applied_witness :
    parse_retry_after "Rate limit reached, error 429. Please try again in 500ms.".data
        = some (1 / 2) ∧
    isRateLimitError "Rate limit reached, error 429. Please try again in 500ms.".data
        = true ∧
    (retryStep RateLimitState.init
        "Rate limit reached, error 429. Please try again in 500ms.".data 0).wait_time
      = 3 / 5 := by
  have hg : searchRetryGroups
      "Rate limit reached, error 429. Please try again in 500ms.".data =
      some ("500".data, [], "ms".data) := by decide
  have hdv : digitsVal "500".data = 500 := by decide
  have hv : hintValue ("500".data, ([] : Text), "ms".data) = 1 / 2 := by
    show ((digitsVal "500".data : ℚ)) / 1000 = 1 / 2
    rw [hdv]
    norm_num
  have hp : parse_retry_after
      "Rate limit reached, error 429. Please try again in 500ms.".data = some (1 / 2) := by
    rw [parse_retry_after, hg]
    show some (hintValue ("500".data, ([] : Text), "ms".data)) = some (1 / 2)
    rw [hv]
  exact ⟨hp, by decide,
    (retry_after_hint_applied RateLimitState.init RateLimitState.Reachable.init
      "Rate limit reached, error 429. Please try again in 500ms.".data 0
      hp (by decide)).1⟩

/-! ### Crisis detection (`migrate_transcriptions.py` lines 263-315)

Each crisis regex is an alternation of literal phrases wrapped in `\b ... \b`
(with optional parts such as `(ing)?`, `[- ]`, `\'?` expanded into the finite
list of alternatives).  Matching is performed on the lower-cased message, so
the `re.IGNORECASE` flag is absorbed by lower-casing the phrase list.  Every
phrase starts and ends with a word character, so `\b` amounts to requiring a
non-word character (or the string edge) on either side. -/

/-- Python regex `\w` (ASCII range, which covers all phrases involved). -/
def isWordChar (c : Char) : Bool := c.isAlphanum || c = '_'

/-- The apostrophe character (from `\'?` in the patterns). -/
def apos : Char := Char.ofNat 39

/-- Whole-word occurrence of `phrase` at the head of `l`, where `prevIsWord`
tells whether the character before this position is a word character. -/
def phraseAt (phrase : Text) (prevIsWord : Bool) (l : Text) : Bool :=
  !prevIsWord && phrase.isPrefixOf l &&
    (match l.drop phrase.length with
     | [] => true
     | c :: _ => !isWordChar c)

def containsPhraseGo (phrase : Text) (prevIsWord : Bool) : Text → Bool
  | [] => false
  | c :: cs => phraseAt phrase prevIsWord (c :: cs) || containsPhraseGo phrase (isWordChar c) cs

/-- `re.search(r'\b(phrase)\b', l)` for a literal phrase. -/
def containsPhrase (phrase : Text) (l : Text) : Bool :=
  containsPhraseGo phrase false l

def matchesAny (phrases : List Text) (l : Text) : Bool :=
  phrases.any (fun p => containsPhrase p l)

/-- `crisis_patterns["suicidal"]` (lines 269-273), alternatives expanded. -/
def suicidalPhrases : List Text :=
  ["suicide".data, "suicidal".data, "kill myself".data, "end my life".data,
   "take my life".data, "want to die".data, "wish i was dead".data,
   "better off dead".data, "no reason to live".data, "nothing to live for".data]

/-- `crisis_patterns["self_harm"]` (lines 274-277), alternatives expanded. -/
def selfHarmPhrases : List Text :=
  ["self-harm".data, "self harm".data, "hurt myself".data, "hurting myself".data,
   "cut myself".data, "cutting myself".data, "harm myself".data, "injure myself".data]

/-- `crisis_patterns["hopelessness"]` (lines 278-281), alternatives expanded. -/
def hopelessnessPhrases : List Text :=
  ["hopeless".data, "give up".data, "no point".data,
   "whats the point".data, "what".data ++ apos :: "s the point".data,
   "cant go on".data, "can".data ++ apos :: "t go on".data,
   "cant take it".data, "can".data ++ apos :: "t take it".data,
   "cant take this".data, "can".data ++ apos :: "t take this".data]

/-- A conversation message as seen by the clinical annotator. -/
structure Msg where
  speaker : String
  message : Text
deriving DecidableEq

inductive CrisisLevel where
  | none
  | medium
  | high
  | critical
deriving DecidableEq

/-- Severity rank of the ordered enumeration none < medium < high < critical. -/
def sev : CrisisLevel → Nat
  | .none => 0
  | .medium => 1
  | .high => 2
  | .critical => 3

def msgSuicidal (m : Msg) : Bool :=
  m.speaker == "User" && matchesAny suicidalPhrases (lowerText m.message)

def msgSelfHarm (m : Msg) : Bool :=
  m.speaker == "User" && matchesAny selfHarmPhrases (lowerText m.message)

def msgHopeless (m : Msg) : Bool :=
  m.speaker == "User" && matchesAny hopelessnessPhrases (lowerText m.message)

structure CrisisIndicators where
  containsSuicidalContent : Bool
  containsSelfHarmContent : Bool
  containsHopelessness : Bool
  crisisLevel : CrisisLevel
deriving DecidableEq

/-- One iteration of the message loop of `detect_crisis_content` (lines
291-313): user-role text is lower-cased and scanned; a suicidal match forces
level "critical"; self-harm and hopelessness matches raise the level to
"high" resp. "medium" only from "none". -/
def crisisStep (ind : CrisisIndicators) (m : Msg) : CrisisIndicators :=
  if m.speaker = "User" then
    let text := lowerText m.message
    let ind1 :=
      if matchesAny suicidalPhrases text then
        { ind with containsSuicidalContent := true, crisisLevel := .critical }
      else ind
    let ind2 :=
      if matchesAny selfHarmPhrases text then
        { ind1 with containsSelfHarmContent := true,
                    crisisLevel := if ind1.crisisLevel = .none then .high
                                   else ind1.crisisLevel }
      else ind1
    if matchesAny hopelessnessPhrases text then
      { ind2 with containsHopelessness := true,
                  crisisLevel := if ind2.crisisLevel = .none then .medium
                                 else ind2.crisisLevel }
    else ind2
  else ind

/-- `detect_crisis_content` (lines 263-315). -/
def detect_crisis_content (messages : List Msg) : CrisisIndicators :=
  messages.foldl crisisStep
    { containsSuicidalContent := false, containsSelfHarmContent := false,
      containsHopelessness := false, crisisLevel := .none }

theorem crisisStep_level (ind : CrisisIndicators) (m : Msg) :
    (crisisStep ind m).crisisLevel =
      (if msgSuicidal m then CrisisLevel.critical
       else if ind.crisisLevel = CrisisLevel.none then
         (if msgSelfHarm m then CrisisLevel.high
          else if msgHopeless m then CrisisLevel.medium
          else CrisisLevel.none)
       else ind.crisisLevel) := by
  rw [crisisStep, msgSuicidal, msgSelfHarm, msgHopeless]
  by_cases hu : m.speaker = "User"
  · rw [if_pos hu]
    have hu' : (m.speaker == "User") = true := by
      rw [hu]; rfl
    rw [hu']
    simp only [Bool.true_and]
    by_cases hs : matchesAny suicidalPhrases (lowerText m.message) = true
    · rw [if_pos hs, hs, if_pos rfl]
      by_cases hsh : matchesAny selfHarmPhrases (lowerText m.message) = true
      · rw [if_pos hsh]
        by_cases hh : matchesAny hopelessnessPhrases (lowerText m.message) = true
        · rw [if_pos hh]
          try rfl
        · rw [if_neg hh]
          try rfl
      · rw [if_neg hsh]
        by_cases hh : matchesAny hopelessnessPhrases (lowerText m.message) = true
        · rw [if_pos hh]
          try rfl
        · rw [if_neg hh]
          try rfl
    · have hs' : matchesAny suicidalPhrases (lowerText m.message) = false :=
        Bool.not_eq_true _ ▸ (by simpa using hs)
      rw [if_neg hs, hs']
      simp only [Bool.false_eq_true, if_false]
      by_cases hsh : matchesAny selfHarmPhrases (lowerText m.message) = true
      · rw [if_pos hsh, hsh]
        by_cases hh : matchesAny hopelessnessPhrases (lowerText m.message) = true
        · rw [if_pos hh]
          by_cases hn : ind.crisisLevel = CrisisLevel.none
          · rw [if_pos hn]
            simp [hn]
          · rw [if_neg hn]
            simp [hn]
        · rw [if_neg hh]
          by_cases hn : ind.crisisLevel = CrisisLevel.none
          · simp [hn]
          · simp [hn]
      · have hsh' : matchesAny selfHarmPhrases (lowerText m.message) = false := by
          simpa using hsh
        rw [if_neg hsh, hsh']
        simp only [Bool.false_eq_true, if_false]
        by_cases hh : matchesAny hopelessnessPhrases (lowerText m.message) = true
        · rw [if_pos hh, hh]
          by_cases hn : ind.crisisLevel = CrisisLevel.none
          · simp [hn]
          · simp [hn]
        · have hh' : matchesAny hopelessnessPhrases (lowerText m.message) = false := by
            simpa using hh
          rw [if_neg hh, hh']
          simp only [Bool.false_eq_true, if_false]
          by_cases hn : ind.crisisLevel = CrisisLevel.none
          · simp [hn]
          · simp [hn]
  · rw [if_neg hu]
    have hu' : (m.speaker == "User") = false := by
      simpa using hu
    rw [hu']
    simp only [Bool.false_and, Bool.false_eq_true, if_false]
    by_cases hn : ind.crisisLevel = CrisisLevel.none
    · simp [hn]
    · simp [hn]

theorem detect_level (msgs : List Msg) : ∀ (ind : CrisisIndicators),
    (List.foldl crisisStep ind msgs).crisisLevel =
      (if msgs.any msgSuicidal then CrisisLevel.critical
       else if ind.crisisLevel = CrisisLevel.none then
         (match msgs.find? (fun m => msgSelfHarm m || msgHopeless m) with
          | some m => if msgSelfHarm m then CrisisLevel.high else CrisisLevel.medium
          | none => CrisisLevel.none)
       else ind.crisisLevel) := by
  induction msgs with
  | nil =>
    intro ind
    simp only [List.foldl_nil, List.any_nil, Bool.false_eq_true, if_false, List.find?_nil]
    by_cases hn : ind.crisisLevel = CrisisLevel.none
    · simp [hn]
    · simp [hn]
  | cons m rest ih =>
    intro ind
    rw [List.foldl_cons, ih (crisisStep ind m)]
    rw [List.any_cons]
    by_cases hs : msgSuicidal m = true
    · have hstep : (crisisStep ind m).crisisLevel = CrisisLevel.critical := by
        rw [crisisStep_level, if_pos hs]
      rw [hstep]
      simp only [hs, Bool.true_or, if_true]
      by_cases hr : rest.any msgSuicidal = true
      · simp [hr]
      · simp [hr]
    · have hs' : msgSuicidal m = false := by simpa using hs
      rw [hs']
      simp only [Bool.false_or]
      by_cases hsh : (msgSelfHarm m || msgHopeless m) = true
      · have hfind : List.find? (fun x => msgSelfHarm x || msgHopeless x) (m :: rest) =
            some m := List.find?_cons_of_pos _ (by simpa using hsh)
        rw [hfind]
        by_cases hn : ind.crisisLevel = CrisisLevel.none
        · have hstep : (crisisStep ind m).crisisLevel =
              (if msgSelfHarm m then CrisisLevel.high
               else if msgHopeless m then CrisisLevel.medium
               else CrisisLevel.none) := by
            rw [crisisStep_level, if_neg (by simp [hs']), if_pos hn]
          rw [hstep]
          by_cases h1 : msgSelfHarm m = true
          · simp [h1, hn]
          · have h1' : msgSelfHarm m = false := by simpa using h1
            have h2 : msgHopeless m = true := by
              rcases Bool.or_eq_true_iff.mp hsh with h | h
              · exact absurd h h1
              · exact h
            simp [h1', h2, hn]
        · have hstep : (crisisStep ind m).crisisLevel = ind.crisisLevel := by
            rw [crisisStep_level, if_neg (by simp [hs']), if_neg hn]
          rw [hstep]
          simp [hn]
      · have hsh' : (msgSelfHarm m || msgHopeless m) = false := by simpa using hsh
        have hfind : List.find? (fun x => msgSelfHarm x || msgHopeless x) (m :: rest) =
            List.find? (fun x => msgSelfHarm x || msgHopeless x) rest :=
          List.find?_cons_of_neg _ (by simp [hsh'])
        rw [hfind]
        have h1 : msgSelfHarm m = false := by
          rcases Bool.or_eq_false_iff.mp hsh' with ⟨h, _⟩
          exact h
        have h2 : msgHopeless m = false := by
          rcases Bool.or_eq_false_iff.mp hsh' with ⟨_, h⟩
          exact h
        by_cases hn : ind.crisisLevel = CrisisLevel.none
        · have hstep : (crisisStep ind m).crisisLevel = CrisisLevel.none := by
            rw [crisisStep_level, if_neg (by simp [hs']), if_pos hn, if_neg (by simp [h1]),
              if_neg (by simp [h2])]
          rw [hstep, if_pos hn, if_pos rfl]
        · have hstep : (crisisStep ind m).crisisLevel = ind.crisisLevel := by
            rw [crisisStep_level, if_neg (by simp [hs']), if_neg hn]
          rw [hstep, if_neg hn]

/-- C3 counterexample: with a hopelessness turn ("i feel hopeless") before a
self-harm turn ("i cut myself"), both from the user, the assigned level is
"medium", strictly below "high", although a user turn matches a self-harm
pattern — the assigned level is not the highest-severity match and depends
on turn order. -/
theorem crisis_level_order_dependent :
    (detect_crisis_content
       [{ speaker := "User", message := "i feel hopeless".data },
        { speaker := "User", message := "i cut myself".data }]).crisisLevel
      = CrisisLevel.medium ∧
    msgSelfHarm { speaker := "User", message := "i cut myself".data } = true ∧
    sev (detect_crisis_content
       [{ speaker := "User", message := "i feel hopeless".data },
        { speaker := "User", message := "i cut myself".data }]).crisisLevel
      < sev CrisisLevel.high := by
  refine ⟨by decide, by decide, by decide⟩

/-- C3 (amended): the level is "critical" exactly when some user turn matches
a suicidal pattern, regardless of order; otherwise it is decided by the
*first* user turn matching a self-harm or hopelessness pattern — "high" if
that turn matches self-harm, else "medium" — and "none" when no turn
matches. -/
theorem detect_crisis_level_characterization (messages : List Msg) :
    (detect_crisis_content messages).crisisLevel =
      (if messages.any msgSuicidal then CrisisLevel.critical
       else match messages.find? (fun m => msgSelfHarm m || msgHopeless m) with
         | some m => if msgSelfHarm m then CrisisLevel.high else CrisisLevel.medium
         | none => CrisisLevel.none) := by
  rw [detect_crisis_content, detect_level]
  by_cases h : messages.any msgSuicidal = true
  · rw [if_pos h, if_pos h]
  · rw [if_neg h, if_neg h, if_pos rfl]

/-! ### PII/PHI scrubbing: `preprocess_text` (`embeddings.py` lines 365-431)

Each `re.subn` pass is embedded as a left-to-right scan (`substGo`): at every
position the pattern is attempted; a match emits the replacement and skips the
matched characters (Python `re` continues after the match end), otherwise one
character is copied.  Word boundaries `\b` are tracked through the previous
original character.  The individual patterns are compiled into backtracking
matchers built from the combinators below, which implement the greedy
`?`/`*`/`+`/`{m,n}` semantics of the Python `re` module for these patterns. -/

/-- Continuation-style matchers: a combinator consumes part of the text and
passes the rest to `cont`, returning the total number of characters consumed. -/
def pEnd (t : Text) : Option Nat :=
  match t with
  | [] => some 0
  | c :: _ => if isWordChar c then none else some 0

/-- Mandatory single character from a class. -/
def pCls (cls : Char → Bool) (cont : Text → Option Nat) : Text → Option Nat
  | [] => none
  | c :: cs => if cls c then (cont cs).map (· + 1) else none

/-- Greedy optional character from a class (regex `X?`), with backtracking. -/
def pOpt (cls : Char → Bool) (cont : Text → Option Nat) : Text → Option Nat
  | [] => cont []
  | c :: cs =>
    if cls c then
      match cont cs with
      | some k => some (k + 1)
      | none => cont (c :: cs)
    else cont (c :: cs)

/-- Greedy `X*` with backtracking. -/
def pStar (cls : Char → Bool) (cont : Text → Option Nat) : Text → Option Nat
  | [] => cont []
  | c :: cs =>
    if cls c then
      match pStar cls cont cs with
      | some k => some (k + 1)
      | none => cont (c :: cs)
    else cont (c :: cs)

/-- Greedy `X+` with backtracking. -/
def pPlus (cls : Char → Bool) (cont : Text → Option Nat) : Text → Option Nat
  | [] => none
  | c :: cs => if cls c then (pStar cls cont cs).map (· + 1) else none

/-- Exactly `k` characters of a class (regex `X{k}`). -/
def pExact (cls : Char → Bool) : Nat → (Text → Option Nat) → Text → Option Nat
  | 0, cont, t => cont t
  | _ + 1, _, [] => none
  | k + 1, cont, c :: cs => if cls c then (pExact cls k cont cs).map (· + 1) else none

/-- Greedy `X{2,}` with backtracking. -/
def pTwoPlus (cls : Char → Bool) (cont : Text → Option Nat) : Text → Option Nat :=
  pExact cls 2 (pStar cls cont)

/-- Greedy `\d{1,2}` with backtracking. -/
def pDigits12 (cont : Text → Option Nat) : Text → Option Nat :=
  fun t =>
    match pExact Char.isDigit 2 cont t with
    | some k => some k
    | none => pExact Char.isDigit 1 cont t

/-- Greedy `\d{2,4}` with backtracking (tries 4, then 3, then 2). -/
def pDigits24 (cont : Text → Option Nat) : Text → Option Nat :=
  fun t =>
    match pExact Char.isDigit 4 cont t with
    | some k => some k
    | none =>
      match pExact Char.isDigit 3 cont t with
      | some k => some k
      | none => pExact Char.isDigit 2 cont t

/-- Case-insensitive literal. -/
def pLitCI : Text → (Text → Option Nat) → Text → Option Nat
  | [], cont, t => cont t
  | _ :: _, _, [] => none
  | lc :: lrest, cont, c :: cs =>
    if c.toLower = lc.toLower then (pLitCI lrest cont cs).map (· + 1) else none

/-- Literal words separated by `\s+` (case-insensitive). -/
def pWordsCI : List Text → (Text → Option Nat) → Text → Option Nat
  | [], cont => cont
  | [w], cont => pLitCI w cont
  | w :: w2 :: ws, cont => pLitCI w (pPlus isWS (pWordsCI (w2 :: ws) cont))

/-- Literal words separated by `\s*` (case-insensitive), for the ID pattern. -/
def pWordsStarCI : List Text → (Text → Option Nat) → Text → Option Nat
  | [], cont => cont
  | [w], cont => pLitCI w cont
  | w :: w2 :: ws, cont => pLitCI w (pStar isWS (pWordsStarCI (w2 :: ws) cont))

/-- Length consumed by a deterministic sub-pattern run on its own (used for
the `\1` capture groups, whose greedy parts cannot interact with the rest of
their patterns). -/
def runLen (p : (Text → Option Nat) → Text → Option Nat) (t : Text) : Option Nat :=
  p (fun _ => some 0) t

/-- `\b` in front of the next input character. -/
def boundaryBefore (prevIsWord : Bool) : Text → Bool
  | [] => false
  | c :: _ => prevIsWord != isWordChar c

/-- One `re.subn`-style pass: scan left to right, replace each non-overlapping
match (matchers always consume at least one character). -/
def substGo (tryM : Bool → Text → Option (Nat × Text)) (skip : Nat)
    (prevIsWord : Bool) : Text → Text
  | [] => []
  | c :: cs =>
    match skip with
    | n + 1 => substGo tryM n (isWordChar c) cs
    | 0 =>
      match tryM prevIsWord (c :: cs) with
      | some (k, repl) => repl ++ substGo tryM (k - 1) (isWordChar c) cs
      | none => c :: substGo tryM 0 (isWordChar c) cs

def pysub (tryM : Bool → Text → Option (Nat × Text)) (t : Text) : Text :=
  substGo tryM 0 false t

def boundaryAfter : Text → Bool
  | [] => true
  | c :: _ => !isWordChar c

def isLocalChar (c : Char) : Bool :=
  c.isAlphanum || c = '.' || c = '_' || c = '%' || c = '+' || c = '-'

def isDomainChar (c : Char) : Bool := c.isAlphanum || c = '.' || c = '-'

/-- The class `[A-Z|a-z]` of the email pattern (the `|` is inside the class). -/
def isLetterPipe (c : Char) : Bool := c.isAlpha || c = '|'

/-- The class `[-.\s]`. -/
def isSepChar (c : Char) : Bool := c = '-' || c = '.' || isWS c

/-- The class `[:\s]`. -/
def isColonWS (c : Char) : Bool := c = ':' || isWS c

/-- The class `[:\s#]`. -/
def isColonWSHash (c : Char) : Bool := c = ':' || isWS c || c = '#'

/-- The slash-or-dash class of the date patterns. -/
def isSlashDash (c : Char) : Bool := c = '/' || c = '-'

/-- `\b\d{3}-\d{2}-\d{4}\b` → `[REDACTED_SSN]` (line 374). -/
def matchSSN (pw : Bool) (t : Text) : Option (Nat × Text) :=
  if boundaryBefore pw t then
    (pExact Char.isDigit 3 (pCls (· = '-') (pExact Char.isDigit 2 (pCls (· = '-')
        (pExact Char.isDigit 4 pEnd)))) t).map (fun k => (k, "[REDACTED_SSN]".data))
  else none

/-- `\b\(?\d{3}\)?[-.\s]?\d{3}[-.\s]?\d{4}\b` → `[REDACTED_PHONE]` (line 379). -/
def matchPhone (pw : Bool) (t : Text) : Option (Nat × Text) :=
  if boundaryBefore pw t then
    (pOpt (· = '(') (pExact Char.isDigit 3 (pOpt (· = ')') (pOpt isSepChar
        (pExact Char.isDigit 3 (pOpt isSepChar (pExact Char.isDigit 4 pEnd)))))) t).map
      (fun k => (k, "[REDACTED_PHONE]".data))
  else none

/-- `\b[A-Za-z0-9._%+-]+@[A-Za-z0-9.-]+\.[A-Z|a-z]{2,}\b` → `[REDACTED_EMAIL]`
(line 384). -/
def matchEmail (pw : Bool) (t : Text) : Option (Nat × Text) :=
  if boundaryBefore pw t then
    (pPlus isLocalChar (pCls (· = '@') (pPlus isDomainChar (pCls (· = '.')
        (pTwoPlus isLetterPipe pEnd)))) t).map (fun k => (k, "[REDACTED_EMAIL]".data))
  else none

/-- Alternation with a leading capture group: each alternative pattern is run
on its own (these groups are deterministic), then the remainder pattern; on
failure the next alternative is tried.  Returns (group length, total length). -/
def tryAlts (alts : List ((Text → Option Nat) → Text → Option Nat))
    (rest : Text → Option Nat) (t : Text) : Option (Nat × Nat) :=
  match alts with
  | [] => none
  | p :: ps =>
    match runLen p t with
    | some g1 =>
      match rest (t.drop g1) with
      | some r => some (g1, g1 + r)
      | none => tryAlts ps rest t
    | none => tryAlts ps rest t

/-- Tail of the date pattern: `[:\s]*` then day, slash-or-dash, month,
slash-or-dash, 2-to-4-digit year, `\b`. -/
def dateRest : Text → Option Nat :=
  pStar isColonWS (pDigits12 (pCls isSlashDash (pDigits12 (pCls isSlashDash
    (pDigits24 pEnd)))))

/-- The group `(dob|date\s+of\s+birth|born\s+on|birthday)`. -/
def dateAlts : List ((Text → Option Nat) → Text → Option Nat) :=
  [pWordsCI ["dob".data],
   pWordsCI ["date".data, "of".data, "birth".data],
   pWordsCI ["born".data, "on".data],
   pWordsCI ["birthday".data]]

/-- The date pattern (lines 389-394, IGNORECASE): `\b`, the group
`(dob|date\s+of\s+birth|born\s+on|birthday)`, then `dateRest`; replaced by
`\1 [REDACTED_DATE]`. -/
def matchDate (pw : Bool) (t : Text) : Option (Nat × Text) :=
  if boundaryBefore pw t then
    (tryAlts dateAlts dateRest t).map (fun g =>
      (g.2, t.take g.1 ++ ' ' :: "[REDACTED_DATE]".data))
  else none

/-- Tail `[:\s#]*\d+\b` of the ID pattern. -/
def idRest : Text → Option Nat :=
  pStar isColonWSHash (pPlus Char.isDigit pEnd)

/-- The group `(mrn|patient\s*id|medical\s*record\s*number?)`. -/
def idAlts : List ((Text → Option Nat) → Text → Option Nat) :=
  [pWordsStarCI ["mrn".data],
   pWordsStarCI ["patient".data, "id".data],
   fun cont => pWordsStarCI ["medical".data, "record".data, "numbe".data]
     (pOpt (fun c => c.toLower = 'r') cont)]

/-- `\b(mrn|patient\s*id|medical\s*record\s*number?)[:\s#]*\d+\b` (IGNORECASE)
→ `\1 [REDACTED_ID]` (lines 399-404). -/
def matchID (pw : Bool) (t : Text) : Option (Nat × Text) :=
  if boundaryBefore pw t then
    (tryAlts idAlts idRest t).map (fun g =>
      (g.2, t.take g.1 ++ ' ' :: "[REDACTED_ID]".data))
  else none

/-- `\b` + literal phrase (words joined by `\s+`, IGNORECASE) + `\b`, with a
fixed replacement — the shape of the HIPAA-keyword and filler-word passes
(lines 408-426). -/
def matchPhraseCI (words : List Text) (repl : Text) (pw : Bool) (t : Text) :
    Option (Nat × Text) :=
  if boundaryBefore pw t then
    match runLen (pWordsCI words) t with
    | some k => if boundaryAfter (t.drop k) then some (k, repl) else none
    | none => none
  else none

/-- `HIPAA_KEYWORDS` (lines 96-100), modelled in listing order (Python set
iteration order is unspecified; the keyword passes touch disjoint text for
everything proved here). -/
def hipaaKeywords : List (List Text) :=
  [["ssn".data], ["social".data, "security".data], ["medical".data, "record".data],
   ["mrn".data], ["patient".data, "id".data], ["dob".data],
   ["date".data, "of".data, "birth".data], ["insurance".data], ["medicaid".data],
   ["medicare".data], ["health".data, "plan".data], ["policy".data, "number".data]]

/-- `FILLER_WORDS` (lines 90-93), modelled in listing order. -/
def fillerWords : List (List Text) :=
  [["um".data], ["uh".data], ["like".data], ["you".data, "know".data],
   ["i".data, "mean".data], ["sort".data, "of".data], ["kind".data, "of".data],
   ["basically".data], ["actually".data], ["literally".data], ["right".data],
   ["okay".data], ["so".data]]

/-- The HIPAA-keyword loop (lines 409-416): one substitution pass per keyword,
replacement `[MEDICAL_TERM]`. -/
def keywordPass (t : Text) : Text :=
  hipaaKeywords.foldl (fun acc kw => pysub (matchPhraseCI kw "[MEDICAL_TERM]".data) acc) t

/-- The filler-word loop (lines 422-426): one substitution pass per filler,
replacement empty. -/
def fillerPass (t : Text) : Text :=
  fillerWords.foldl (fun acc w => pysub (matchPhraseCI w []) acc) t

/-- `' '.join(text.split())` (line 429). -/
def normalizeWS (t : Text) : Text := joinWords (pyWords t)

/-- `preprocess_text` (lines 365-431) with the default configuration
(`REMOVE_HIPAA_KEYWORDS` and `REMOVE_FILLER_WORDS` both true): the five PHI
pattern passes, then the keyword passes, the filler passes, and whitespace
normalization. -/
def preprocess_text (t : Text) : Text :=
  normalizeWS (fillerPass (keywordPass
    (pysub matchID (pysub matchDate (pysub matchEmail
      (pysub matchPhone (pysub matchSSN t)))))))

/-- C9: the PII sanitizer is not idempotent.  On "123 like 456 7890" the PHI
passes (which run first) find no phone number because the filler word "like"
sits between the digit groups; the filler pass then deletes "like", and the
normalized output "123 456 7890" matches the phone pattern — so a second
application redacts what the first one left in clear text. -/
theorem preprocess_text_not_idempotent :
    preprocess_text "123 like 456 7890".data = "123 456 7890".data ∧
    preprocess_text (preprocess_text "123 like 456 7890".data)
      = "[REDACTED_PHONE]".data ∧
    preprocess_text (preprocess_text "123 like 456 7890".data)
      ≠ preprocess_text "123 like 456 7890".data :=
  ⟨by decide, by decide, by decide⟩

/-! ### Ingestion: `process_conversation` and `process_batch`
(`embeddings.py` lines 598-736 and 777-816)

The embedding API is an oracle `embed : List Text → Option (List V)`
(`none` models `get_batch_embeddings` raising after exhausting its retries);
`bs` models `rate_limit_state.current_batch_size` (re-read per sub-batch in
the source; a fixed value is a particular schedule of that state, which the
claims do not depend on).  `as_completed` yields futures in a nondeterministic
order; the fold below is one such order. -/

def pyStrip (t : Text) : Text :=
  ((t.dropWhile isWS).reverse.dropWhile isWS).reverse

def CHUNK_SIZE : Nat := 800

def BATCH_COMMIT_SIZE : Nat := 1000

structure PipelineMsg where
  speaker : String
  message : Text
deriving DecidableEq

structure ClinicalContext where
  crisisLevel : String
  containsSuicidal : Bool
  containsSelfHarm : Bool
  symptoms : List String
  copingStrategies : List String
deriving DecidableEq

structure ConvDoc where
  conversationId : String
  messages : List PipelineMsg
  clinical : ClinicalContext
  conversationOutcome : String
deriving DecidableEq

structure InsertRecord (V : Type) where
  conversationId : String
  turnIndex : Nat
  speaker : String
  chunk : Text
  embedding : V
  crisisLevel : String
  containsSuicidal : Bool
  containsSelfHarm : Bool
  symptoms : List String
  copingStrategies : List String
  outcome : String
deriving DecidableEq

structure WordPos where
  turn_index : Nat
  speaker : String
  start_word : Nat
  end_word : Nat
deriving DecidableEq

structure ChunkMeta where
  turn_index : Nat
  speaker : String
  chunk : Text
  chunk_index : Nat
deriving DecidableEq

/-- Speaker mapping of line 623: `"user"` (case-insensitive) → `"Patient"`. -/
def mapSpeaker (s : String) : String :=
  if lowerText s.data = "user".data then "Patient" else s

/-- Lines 620-646: strip, preprocess, drop short texts, add the speaker
prefix; returns (turn index, speaker, formatted text) for each kept turn. -/
def buildTurnTexts (msgs : List PipelineMsg) : List (Nat × String × Text) :=
  msgs.enum.filterMap (fun p =>
    let speaker := mapSpeaker p.2.speaker
    let text0 := pyStrip p.2.message
    if text0 = [] then none
    else
      let text := preprocess_text text0
      if text = [] ∨ (pyStrip text).length < 3 then none
      else some (p.1, speaker, "[".data ++ speaker.data ++ "]: ".data ++ text))

/-- Lines 661-672: cumulative word spans of the kept turns. -/
def buildWordPositions : List (Nat × String × Text) → Nat → List WordPos
  | [], _ => []
  | (i, sp, txt) :: rest, cum =>
    let w := (pyWords txt).length
    { turn_index := i, speaker := sp, start_word := cum, end_word := cum + w } ::
      buildWordPositions rest (cum + w)

/-- Lines 683-694: pick the turn containing the chunk's starting word
(first span containing it wins; otherwise the last span it lies past). -/
def findTurn : List WordPos → Nat → (Nat × String) → (Nat × String)
  | [], _, acc => acc
  | p :: rest, csw, acc =>
    if p.start_word ≤ csw ∧ csw < p.end_word then (p.turn_index, p.speaker)
    else if p.end_word ≤ csw then findTurn rest csw (p.turn_index, p.speaker)
    else findTurn rest csw acc

/-- Lines 674-701: clean each chunk, keep chunks of at least 10 characters,
attach turn/speaker metadata ("MIXED" except for the first chunk or a
single-turn conversation). -/
def buildChunkData (chunks : List Text) (ps : List WordPos) :
    List (Text × ChunkMeta) :=
  chunks.enum.filterMap (fun p =>
    let cc := pyStrip p.2
    if cc ≠ [] ∧ 10 ≤ cc.length then
      let csw := p.1 * CHUNK_SIZE
      let ts := findTurn ps csw (0, "MIXED")
      some (cc,
        { turn_index := ts.1,
          speaker := if p.1 = 0 ∨ ps.length = 1 then ts.2 else "MIXED",
          chunk := cc, chunk_index := p.1 })
    else none)

def mkRecord {V : Type} (conv : ConvDoc) (md : ChunkMeta) (v : V) : InsertRecord V :=
  { conversationId := conv.conversationId, turnIndex := md.turn_index,
    speaker := md.speaker, chunk := md.chunk, embedding := v,
    crisisLevel := conv.clinical.crisisLevel,
    containsSuicidal := conv.clinical.containsSuicidal,
    containsSelfHarm := conv.clinical.containsSelfHarm,
    symptoms := conv.clinical.symptoms,
    copingStrategies := conv.clinical.copingStrategies,
    outcome := conv.conversationOutcome }

/-- Lines 707-734: embed the chunks in sub-batches; an embedding failure in
any sub-batch makes the whole conversation return no records. -/
def batchEmbedGo {V : Type} (embed : List Text → Option (List V)) (conv : ConvDoc) :
    List (List (Text × ChunkMeta)) → Option (List (InsertRecord V))
  | [] => some []
  | b :: rest =>
    match embed (b.map Prod.fst) with
    | none => none
    | some embs =>
      match batchEmbedGo embed conv rest with
      | none => none
      | some more =>
        some (((b.map Prod.snd).zip embs).map (fun q => mkRecord conv q.1 q.2) ++ more)

/-- `process_conversation` (lines 598-736): returns
(conversation id, insert records, chunk count); an embedding failure is
caught internally and yields `(call_id, [], 0)` (line 732-734). -/
def processConversation {V : Type} (embed : List Text → Option (List V)) (bs : Nat)
    (conv : ConvDoc) : String × List (InsertRecord V) × Nat :=
  let ts := buildTurnTexts conv.messages
  if ts = [] then (conv.conversationId, [], 0)
  else
    let ps := buildWordPositions ts 0
    let full := joinWords (ts.map (fun x => x.2.2))
    let chunks := chunk_text full CHUNK_SIZE
    let pairs := buildChunkData chunks ps
    if pairs = [] then (conv.conversationId, [], 0)
    else
      match batchEmbedGo embed conv (chunksOf bs pairs) with
      | some recs => (conv.conversationId, recs, pairs.length)
      | none => (conv.conversationId, [], 0)

structure RunState (V : Type) where
  insert_buffer : List (InsertRecord V)
  checkpoint_saved : List String
  processed_ids : List String
  conversations_processed : Nat
  total_chunks : Nat
  committed : List (List (InsertRecord V))
deriving DecidableEq

def RunState.initial (V : Type) : RunState V :=
  { insert_buffer := [], checkpoint_saved := [], processed_ids := [],
    conversations_processed := 0, total_chunks := 0, committed := [] }

/-- Handling of one completed future inside `process_batch` (lines 781-807):
extend the buffer when records came back, then unconditionally save the
checkpoint (line 790) and count the conversation, committing the buffer when
it reaches the commit size. -/
def processResult {V : Type} (st : RunState V)
    (r : String × List (InsertRecord V) × Nat) : RunState V :=
  let st1 :=
    if r.2.1.isEmpty then st
    else
      { st with insert_buffer := st.insert_buffer ++ r.2.1,
                total_chunks := st.total_chunks + r.2.2 }
  let st2 :=
    { st1 with checkpoint_saved := st1.checkpoint_saved ++ [r.1],
               processed_ids := st1.processed_ids ++ [r.1],
               conversations_processed := st1.conversations_processed + 1 }
  if BATCH_COMMIT_SIZE ≤ st2.insert_buffer.length then
    { st2 with committed := st2.committed ++ [st2.insert_buffer], insert_buffer := [] }
  else st2

/-- `process_batch` (lines 777-816) in one completion order. -/
def process_batch {V : Type} (embed : List Text → Option (List V)) (bs : Nat)
    (st : RunState V) (batch : List ConvDoc) : RunState V :=
  batch.foldl (fun s conv => processResult s (processConversation embed bs conv)) st

/-- A conversation whose single message survives preprocessing. -/
def c1conv : ConvDoc :=
  { conversationId := "conv-1",
    messages := [{ speaker := "user", message := "hello there friend".data }],
    clinical := { crisisLevel := "none", containsSuicidal := false,
                  containsSelfHarm := false, symptoms := [], copingStrategies := [] },
    conversationOutcome := "unknown" }

/-- C1: when the embedding batch fails (`get_batch_embeddings` exhausts its
retries, modelled by the always-failing oracle), `process_conversation`
returns no records — yet `process_batch` still writes the conversation id to
the checkpoint store, so the conversation is not eligible for retry.  The
same conversation produces one chunk (and one record) under a succeeding
oracle, showing the failure path is really exercised. -/
theorem failed_conversation_checkpointed :
    (processConversation (fun _ => (none : Option (List Unit))) 500 c1conv).2.1 = [] ∧
    (processConversation (fun ts => some (ts.map (fun _ => ()))) 500 c1conv).2.2 = 1 ∧
    (process_batch (fun _ => (none : Option (List Unit))) 500
        (RunState.initial Unit) [c1conv]).checkpoint_saved = ["conv-1"] :=
  ⟨by decide, by decide, by decide⟩

/-! ### Context Assembly Engine (`therapist_context_manager.py`)

Token estimation (line 85-88) is `int(len(text.split()) / 1.33)`; over exact
rationals this is `⌊words * 100 / 133⌋`, which agrees with the CPython float
computation for every word count arising below (the float `1.33` is slightly
above `133/100`, and the quotient rounds back across an integer boundary only
for astronomically large word counts).  Budget shares `int(budget * 0.40)`
etc. are likewise modelled as `budget * 40 / 100`; all concrete budgets used
in theorems (3, 100, 8000) give the same values under CPython floats.

Database and vector-index calls are oracles: `historyFetch = none` models
`get_recent_conversations` raising (it has no exception handler),
`searchRaw = none` models the Weaviate query raising inside
`search_similar_conversations` (caught there, returning `[]`).  A Python
`UnboundLocalError` (reading `similar_tokens` when it was never assigned)
is the `unboundLocal` error value. -/

inductive PyError where
  | dbError
  | unboundLocal
deriving DecidableEq

/-- `" sep ".join(pieces)` for an arbitrary separator string. -/
def joinSep (sep : Text) : List Text → Text
  | [] => []
  | [w] => w
  | w :: w2 :: ws => w ++ sep ++ joinSep sep (w2 :: ws)

def digitChar (n : Nat) : Char := Char.ofNat (48 + n)

def natReprAux : Nat → Nat → Text
  | 0, _ => []
  | f + 1, n => if n < 10 then [digitChar n] else natReprAux f (n / 10) ++ [digitChar (n % 10)]

/-- Decimal rendering of a natural number (`str(n)`). -/
def natRepr (n : Nat) : Text := natReprAux (n + 1) n

/-- Two-decimal rendering of a nonnegative similarity (`f"{x:.2f}"`), by
truncation; the exact digits are immaterial here (no whitespace either way,
so word counts are unaffected). -/
def fmtQ2 (q : ℚ) : Text :=
  let n := (q * 100).floor.toNat
  natRepr (n / 100) ++ '.' :: (if n % 100 < 10 then '0' :: natRepr (n % 100)
                               else natRepr (n % 100))

/-- `estimate_tokens` (lines 85-88). -/
def estimate_tokens (t : Text) : Nat := (pyWords t).length * 100 / 133

structure CtxMsg where
  sender_type : String
  content : Text
deriving DecidableEq

structure ConvSummary where
  conversation_id : String
  title : String
  date : Text
  topics : List Text
  message_count : Nat
  user_messages : Nat
  bot_messages : Nat
  first_message_preview : Text
deriving DecidableEq

structure RawHit where
  conversationId : String
  turnIndex : Nat
  speaker : String
  textChunk : Text
  distance : ℚ
  timestamp : Nat
deriving DecidableEq

structure ScoredChunk where
  conversation_id : String
  turn_index : Nat
  speaker : String
  text_chunk : Text
  similarity : ℚ
  timestamp : Nat
deriving DecidableEq

/-- `_format_messages` (lines 516-532). -/
def _format_messages (messages : List CtxMsg) : Text :=
  joinSep "\n".data (messages.map (fun m =>
    "[".data ++ (if m.sender_type = "USER" then "Patient".data
                 else if m.sender_type = "BOT" then "Therapist".data
                 else m.sender_type.data) ++ "]: ".data ++ m.content))

/-- `_format_conversation_summaries` (lines 534-541). -/
def _format_conversation_summaries (ss : List ConvSummary) : Text :=
  joinSep "\n".data ((ss.map (fun s =>
    [("Date: ".data ++ s.date),
     ("Topics: ".data ++ joinSep ", ".data s.topics),
     ("Messages: ".data ++ natRepr s.message_count)])).flatten)

/-- `_format_similar_conversations` (lines 543-548). -/
def _format_similar_conversations (similar : List ScoredChunk) : Text :=
  joinSep "\n".data (similar.map (fun item =>
    "[".data ++ fmtQ2 item.similarity ++ "] ".data ++ item.text_chunk.take 200))

def truncGo (token_budget : Nat) : List CtxMsg → List CtxMsg → Nat → List CtxMsg
  | [], acc, _ => acc
  | m :: rest, acc, tokens =>
    let msg_tokens := estimate_tokens (_format_messages [m])
    if tokens + msg_tokens ≤ token_budget then
      truncGo token_budget rest (m :: acc) (tokens + msg_tokens)
    else acc

/-- `_truncate_messages` (lines 550-566): keep the most recent messages whose
token estimates fit, stopping at the first message that does not fit. -/
def _truncate_messages (messages : List CtxMsg) (token_budget : Nat) : List CtxMsg :=
  truncGo token_budget messages.reverse [] 0

/-- Lines 273-286: similarity `1 - distance/2`; results below the threshold
are dropped. -/
def scoreHit (threshold : ℚ) (item : RawHit) : Option ScoredChunk :=
  if threshold ≤ 1 - item.distance / 2 then
    some { conversation_id := item.conversationId, turn_index := item.turnIndex,
           speaker := item.speaker, text_chunk := item.textChunk,
           similarity := 1 - item.distance / 2, timestamp := item.timestamp }
  else none

/-- The sort key of line 289: similarity descending. -/
def simDescOrder (a b : ScoredChunk) : Prop := b.similarity ≤ a.similarity

instance : DecidableRel simDescOrder := fun a b =>
  inferInstanceAs (Decidable (b.similarity ≤ a.similarity))

instance : IsTotal ScoredChunk simDescOrder :=
  ⟨fun a b => le_total b.similarity a.similarity⟩

instance : IsTrans ScoredChunk simDescOrder :=
  ⟨fun _ _ _ h1 h2 => le_trans h2 h1⟩

/-- Post-processing of a similarity query result (lines 271-291): score by
`1 - distance/2`, keep results at or above the threshold (in query order),
sort by similarity descending (Python's stable sort, modelled by a stable
insertion sort), return the first `limit`. -/
def searchProcess (raw : List RawHit) (limit : Nat) (threshold : ℚ) : List ScoredChunk :=
  (List.insertionSort simDescOrder (raw.filterMap (scoreHit threshold))).take limit

/-- `search_similar_conversations` (lines 235-295): any exception from the
vector index (modelled by `raw = none`) is caught and yields `[]`. -/
def search_similar_conversations (raw : Option (List RawHit)) (limit : Nat)
    (threshold : ℚ) : List ScoredChunk :=
  match raw with
  | none => []
  | some hits => searchProcess hits limit threshold

structure TokenBreakdown where
  current_session : Nat
  recent_history : Nat
  relevant_past : Nat
deriving DecidableEq

structure TokenUsage where
  total_used : Nat
  budget : Nat
  utilization : ℚ
  breakdown : TokenBreakdown

structure ContextBundle where
  token_budget : Nat
  conversation_id : Option String
  user_id : Option String
  recent_history : List ConvSummary
  current_session : List CtxMsg
  relevant_past_context : List ScoredChunk
  token_usage : TokenUsage

/-- The count-shrinking loops of tiers 2 and 3 (lines 404-410 and 439-445):
`for i in range(len(items), 0, -1)` recomputes the token estimate of the
first `i` items and stops at the first fit; when nothing fits the loop runs
to `i = 1` and falls through, leaving the context entry empty and the tokens
variable holding the `i = 1` estimate.  Returns (included items, final tokens
variable, whether anything was included). -/
def shrinkLoop {α : Type} (fmt : List α → Text) (budget : Nat) (items : List α) :
    Nat → (List α × Nat × Bool)
  | 0 => ([], 0, false)
  | i + 1 =>
    let tk := estimate_tokens (fmt (items.take (i + 1)))
    if tk ≤ budget then (items.take (i + 1), tk, true)
    else
      match i with
      | 0 => ([], tk, false)
      | j + 1 => shrinkLoop fmt budget items (j + 1)

/-- `build_context` (lines 334-459).  The three tiers run in order: current
session (40% of budget, truncated from the oldest message when over), recent
history (35%, only when a user id is supplied; the fetch has no exception
handler, so a failing fetch propagates), semantically similar past (25%,
only when `include_similar` and the possibly-truncated session is nonempty
and it contains a USER message).  The final `token_usage` dict reads
`history_tokens`/`similar_tokens` whether or not those tiers fit, and reads
`similar_tokens` even when it was never assigned (no USER message), which
raises `UnboundLocalError`. -/
def build_context (current_session : List CtxMsg) (conversation_id : Option String)
    (user_id : Option String) (include_similar : Bool) (token_budget : Option Nat)
    (historyFetch : Option (List ConvSummary)) (searchRaw : Option (List RawHit)) :
    Except PyError ContextBundle :=
  let B := token_budget.getD 8000
  let sb := B * 40 / 100
  let cst0 := estimate_tokens (_format_messages current_session)
  let cs := if sb < cst0 then _truncate_messages current_session sb else current_session
  let cst := if sb < cst0 then estimate_tokens (_format_messages cs) else cst0
  let hres : Except PyError (List ConvSummary × Nat × Nat) :=
    match user_id with
    | none => .ok ([], 0, 0)
    | some _ =>
      match historyFetch with
      | none => .error .dbError
      | some recent_convs =>
        let hb := B * 35 / 100
        let ht0 := estimate_tokens (_format_conversation_summaries recent_convs)
        if ht0 ≤ hb then .ok (recent_convs, ht0, ht0)
        else
          let r := shrinkLoop _format_conversation_summaries hb recent_convs
            recent_convs.length
          .ok (r.1, r.2.1, if r.2.2 then r.2.1 else 0)
  match hres with
  | .error e => .error e
  | .ok (rh, htRep, htAdd) =>
    let needSim := include_similar && !cs.isEmpty
    let sres : (List ScoredChunk × Option Nat × Nat) :=
      if needSim then
        match cs.reverse.find? (fun m => m.sender_type == "USER") with
        | none => ([], none, 0)
        | some m =>
          if m.content.isEmpty then ([], none, 0)
          else
          let simb := B * 25 / 100
          let similar_convs := search_similar_conversations searchRaw 5 (7 / 10)
          let st0 := estimate_tokens (_format_similar_conversations similar_convs)
          if st0 ≤ simb then (similar_convs, some st0, st0)
          else
            let r := shrinkLoop _format_similar_conversations simb similar_convs
              similar_convs.length
            (r.1, some r.2.1, if r.2.2 then r.2.1 else 0)
      else ([], none, 0)
    let tokens_used := cst + htAdd + sres.2.2
    match needSim, sres.2.1 with
    | true, none => .error .unboundLocal
    | _, _ =>
      .ok { token_budget := B, conversation_id := conversation_id, user_id := user_id,
            recent_history := rh, current_session := cs,
            relevant_past_context := sres.1,
            token_usage :=
              { total_used := tokens_used, budget := B,
                utilization := (tokens_used : ℚ) * 100 / (B : ℚ),
                breakdown :=
                  { current_session := cst,
                    recent_history := if user_id.isSome then htRep else 0,
                    relevant_past :=
                      match sres.2.1 with
                      | some v => v
                      | none => 0 } } }

/-- A recent-history summary whose formatted text ("Date: d / Topics: t1, t2,
t3, t4, t5 / Messages: 1") is 10 words, hence 7 estimated tokens. -/
def c2hist : ConvSummary :=
  { conversation_id := "c", title := "t", date := "d".data,
    topics := ["t1".data, "t2".data, "t3".data, "t4".data, "t5".data],
    message_count := 1, user_messages := 1, bot_messages := 0,
    first_message_preview := [] }

/-- C2: the claimed budget invariant fails on both counts.  (a) With a
session of one USER message "a b" (2 estimated tokens) and token budget 3,
the 40% session budget is 1 token, `_truncate_messages` drops every message,
and the returned bundle's current-session tier is empty although the input
session was nonempty and the budget positive.  (b) With session "a", user id
"u", budget 3 and one recent-history summary that does not fit its 1-token
tier, the shrink loop falls through, yet the breakdown still records the
stale 7-token history estimate: the recorded per-tier costs sum to
1 + 7 + 0 = 8 > 3, exceeding the budget. -/
theorem build_context_budget_invariant_fails :
    (((build_context [{ sender_type := "USER", content := "a b".data }] none none true
          (some 3) (some []) (some [])).toOption.map ContextBundle.current_session)
        = some []
      ∧ ([{ sender_type := "USER", content := "a b".data }] : List CtxMsg) ≠ []
      ∧ 0 < 3)
    ∧ (((build_context [{ sender_type := "USER", content := "a".data }] none (some "u")
          false (some 3) (some [c2hist]) none).toOption.map (fun b =>
            b.token_usage.breakdown.current_session
              + b.token_usage.breakdown.recent_history
              + b.token_usage.breakdown.relevant_past)) = some 8
      ∧ ¬ (8 ≤ 3)) :=
  ⟨⟨by decide, by decide, by decide⟩, by decide, by decide⟩

/-- C10: with `include_similar = true` and a nonempty session containing no
USER message, `build_context` does not return a bundle: the token-usage dict
reads `similar_tokens`, which was never assigned on this path, raising
`UnboundLocalError` (modelled as `.error .unboundLocal`). -/
theorem build_context_no_user_message_raises :
    build_context [{ sender_type := "BOT", content := "hi there".data }] none none true
      none (some []) (some []) = .error .unboundLocal := by
  rfl

/-- A recent-history summary fitting comfortably in a 35-token tier (its
formatted text is 6 words, 4 estimated tokens). -/
def c7hist : ConvSummary :=
  { conversation_id := "h", title := "t", date := "d".data, topics := ["t1".data],
    message_count := 2, user_messages := 1, bot_messages := 1,
    first_message_preview := [] }

/-- C7 (amended): a similarity-search failure is caught inside
`search_similar_conversations` and behaves exactly like a search returning no
hits (first conjunct: for all arguments, a failing search - `searchRaw =
none` - produces the same result as a search returning `some []`), and on a
concrete run with a failing search the bundle is returned with the
relevant-past tier empty and the other tiers populated as usual (third
conjunct).  A recent-history fetch failure, by contrast, is NOT caught:
whenever a user id is supplied and the fetch fails, `build_context`
propagates the exception (second conjunct). -/
theorem build_context_failure_handling :
    (∀ (cs : List CtxMsg) (cid uid : Option String) (inc : Bool) (tb : Option Nat)
        (hist : Option (List ConvSummary)),
      build_context cs cid uid inc tb hist none
        = build_context cs cid uid inc tb hist (some []))
    ∧ (∀ (cs : List CtxMsg) (cid : Option String) (u : String) (inc : Bool)
        (tb : Option Nat) (raw : Option (List RawHit)),
      build_context cs cid (some u) inc tb none raw = .error .dbError)
    ∧ ((build_context [{ sender_type := "USER", content := "hello".data }] none
          (some "u") true (some 100) (some [c7hist]) none).toOption.map (fun b =>
            (b.relevant_past_context, b.recent_history, b.current_session))
        = some ([], [c7hist], [{ sender_type := "USER", content := "hello".data }])) :=
  ⟨fun _ _ _ _ _ _ => rfl, fun _ _ _ _ _ _ => rfl, by decide⟩

/-- C7 counterexample: a failing recent-history fetch (user id supplied, the
database call raises) is not caught by `build_context`; the exception
propagates instead of an empty-tier bundle being returned. -/
theorem history_failure_propagates :
    build_context [{ sender_type := "USER", content := "hi".data }] none (some "u")
      false (some 100) none (some []) = .error .dbError := by
  rfl

def mkHit (id : String) (d : ℚ) : RawHit :=
  { conversationId := id, turnIndex := 0, speaker := "CUSTOMER",
    textChunk := "x".data, distance := d, timestamp := 0 }

/-- Distances 0.2, 0.3, 0.56, 0.62, 1.0, i.e. raw similarities
0.9, 0.85, 0.72, 0.69, 0.5 - the example of the claim. -/
def scenarioHits : List RawHit :=
  [mkHit "r1" (1/5), mkHit "r2" (3/10), mkHit "r3" (14/25),
   mkHit "r4" (31/50), mkHit "r5" 1]

/-- Six hits whose similarities 0.95, 0.9, 0.85, 0.8, 0.75, 0.72 all clear
the 0.7 threshold. -/
def sixHits : List RawHit :=
  [mkHit "s1" (1/10), mkHit "s2" (1/5), mkHit "s3" (3/10),
   mkHit "s4" (2/5), mkHit "s5" (1/2), mkHit "s6" (14/25)]

theorem scoreHit_length (threshold : ℚ) (raw : List RawHit) :
    (raw.filterMap (scoreHit threshold)).length
      = raw.countP (fun i => decide (threshold ≤ 1 - i.distance / 2)) := by
  induction raw with
  | nil => rfl
  | cons h t ih =>
    rw [List.filterMap_cons, List.countP_cons]
    by_cases hc : threshold ≤ 1 - h.distance / 2
    · simp [scoreHit, hc, ih]
    · simp [scoreHit, hc, ih]

theorem searchProcess_mem (raw : List RawHit) (limit : Nat) (threshold : ℚ) :
    ∀ r ∈ searchProcess raw limit threshold,
      threshold ≤ r.similarity ∧ ∃ i ∈ raw, r.similarity = 1 - i.distance / 2 := by
  intro r hr
  have h1 : r ∈ List.insertionSort simDescOrder (raw.filterMap (scoreHit threshold)) :=
    List.take_subset _ _ hr
  have h2 : r ∈ raw.filterMap (scoreHit threshold) :=
    ((List.perm_insertionSort simDescOrder _).mem_iff).mp h1
  rcases List.mem_filterMap.mp h2 with ⟨i, hi, hfi⟩
  rw [scoreHit] at hfi
  by_cases hc : threshold ≤ 1 - i.distance / 2
  · rw [if_pos hc] at hfi
    have hsim : r.similarity = 1 - i.distance / 2 := by
      cases hfi.symm
      rfl
    exact ⟨hsim ▸ hc, i, hi, hsim⟩
  · rw [if_neg hc] at hfi
    exact absurd hfi (by simp)

/-- C5 (amended): every retained result of the similarity search scores at
or above the threshold and its similarity is `1 - distance/2` of some raw
hit; the retained list is sorted by similarity descending; and its length is
the number of qualifying hits capped at `limit` (so the retained results are
the top-`limit` qualifying items, not always ALL qualifying items).  On the
claim's example - raw similarities 0.9, 0.85, 0.72, 0.69, 0.5 at threshold
0.7 and limit 5 - exactly the first three are retained, in that order. -/
theorem search_similar_retained (raw : List RawHit) (limit : Nat) (threshold : ℚ) :
    (searchProcess raw limit threshold).Forall (fun r =>
      threshold ≤ r.similarity ∧ ∃ i ∈ raw, r.similarity = 1 - i.distance / 2)
    ∧ List.Sorted simDescOrder (searchProcess raw limit threshold)
    ∧ (searchProcess raw limit threshold).length
        = min limit (raw.countP (fun i => decide (threshold ≤ 1 - i.distance / 2)))
    ∧ (searchProcess scenarioHits 5 (7/10)).map
        (fun s => (s.conversation_id, s.similarity))
      = [("r1", 9/10), ("r2", 17/20), ("r3", 18/25)] := by
  refine ⟨List.forall_iff_forall_mem.mpr (searchProcess_mem raw limit threshold),
    ?_, ?_, ?_⟩
  · have hs : List.Sorted simDescOrder
        (List.insertionSort simDescOrder (raw.filterMap (scoreHit threshold))) :=
      List.sorted_insertionSort simDescOrder _
    exact hs.sublist (List.take_sublist _ _)
  · rw [searchProcess, List.length_take,
      (List.perm_insertionSort simDescOrder _).length_eq, scoreHit_length]
  · norm_num [searchProcess, scoreHit, scenarioHits, mkHit, simDescOrder,
      List.insertionSort, List.orderedInsert, List.filterMap_cons, List.take]

/-- C5 counterexample: when six hits qualify (similarities 0.95, 0.9, 0.85,
0.8, 0.75, 0.72, all at or above the 0.7 threshold) but the limit is 5, only
five results are retained - the retained set is NOT exactly the set of
qualifying items. -/
theorem search_limit_drops_qualifying :
    (searchProcess sixHits 5 (7/10)).length = 5
    ∧ sixHits.countP (fun i => decide ((7 : ℚ)/10 ≤ 1 - i.distance / 2)) = 6
    ∧ (5 : Nat) ≠ 6 := by
  refine ⟨?_, ?_, by decide⟩
  · norm_num [searchProcess, scoreHit, sixHits, mkHit, simDescOrder,
      List.insertionSort, List.orderedInsert, List.filterMap_cons, List.take]
  · norm_num [sixHits, mkHit, List.countP_cons]

end Centauraa
